import Mathlib

/-!
Verification of `fjcloud/ec2-spot-finder-static`.

The repository's `src/fetch_spot_data.go` contains two concatenated iterations
of the same pipeline:

* iteration 1 (first program in the file): `fetchRegions`, `getSpotDeals`
  returning `([]Instance, error)`, a concurrent `fetchSpotData` that collects
  each region's best deal into a `GlobalDeal` leaderboard, and a `main` that
  unconditionally writes `docs/spot_data.json`.  Its output schema (camelCase
  leaderboard keys) is the one the static front end consumes.
* iteration 2 (second program in the file): `getSpotDeals` returning a bare
  `[]Instance` (nil on error), a sequential `fetchSpotData` that pools all
  instances for the top-5, and a `main` with `readExistingData` /
  `dataChanged` / `writeDataToFile` change detection.

Both are embedded below, in namespaces `Iter1` and `Iter2`.

Modelling conventions:

* Go `float64` values are modelled as exact rationals (`Q` below, a fraction
  with positive denominator); IEEE rounding is elided and division by zero
  yields `0` instead of an infinity (the code divides by a vCPU count, and the
  claims under study do not hinge on zero-vCPU offers).
* Go slices are modelled as `Option (List α)`: `none` is the nil slice, which
  `encoding/json` marshals as `null`.  `append` on nil yields a non-nil slice,
  so every slice built purely by `append` is `none` exactly when it is empty.
* Go maps are modelled as association lists with unique keys (`mapInsert`
  overwrites an existing key in place); iteration order of the source map is
  irrelevant to every property proved here.
* network and file I/O are passed in as explicit inputs: the region-directory
  document, one pricing response per region, the wall-clock timestamp, and the
  previously persisted file content.
* Go `sort.Slice xs less` (an unstable comparison sort) is modelled as a sort
  producing a permutation of `xs` that is non-decreasing with respect to the
  total preorder `fun a b => ¬ less b a`; `List.insertionSort` over that
  preorder is such a sort.
-/

/-- Exact rational number: a fraction with positive denominator.  This models
the Go `float64` values computed by the program (spot prices and
price-per-vCPU ratios) as exact rationals, eliding IEEE-754 rounding.  Kept
as a raw fraction (not reduced) so that every operation evaluates inside the
kernel. -/
structure Q where
  num : Int
  den : Int
  den_pos : 0 < den

instance : DecidableEq Q
  | ⟨n1, d1, _⟩, ⟨n2, d2, _⟩ =>
    if h : n1 = n2 ∧ d1 = d2 then
      isTrue (by cases h.1; cases h.2; rfl)
    else
      isFalse (by intro he; cases he; exact h ⟨rfl, rfl⟩)

/-- Embed an integer as a `Q`. -/
def Q.ofInt (n : Int) : Q := ⟨n, 1, one_pos⟩

/-- The rational zero, which is also what the Go code obtains from an ignored
`strconv.ParseFloat` error. -/
def Q.zero : Q := Q.ofInt 0

/-- Comparison of fractions by cross multiplication; with positive
denominators this is the usual order on rational values. -/
def Q.le (a b : Q) : Prop := a.num * b.den ≤ b.num * a.den

instance : DecidableRel Q.le := fun a b =>
  inferInstanceAs (Decidable (a.num * b.den ≤ b.num * a.den))

theorem Q.le_total (a b : Q) : Q.le a b ∨ Q.le b a := Int.le_total _ _

theorem Q.le_trans {a b c : Q} (h1 : Q.le a b) (h2 : Q.le b c) : Q.le a c := by
  have h3 := mul_le_mul_of_nonneg_right h1 c.den_pos.le
  have h4 := mul_le_mul_of_nonneg_right h2 a.den_pos.le
  have h5 : a.num * c.den * b.den ≤ c.num * a.den * b.den := by nlinarith
  exact le_of_mul_le_mul_right h5 b.den_pos

/-- Powers of ten used by the decimal-literal model. -/
def pow10 (n : Nat) : Int := (10 : Int) ^ n

theorem pow10_pos (n : Nat) : 0 < pow10 n := pow_pos (by norm_num) n

/-- Negation on `Q`. -/
def Q.neg (a : Q) : Q := ⟨-a.num, a.den, a.den_pos⟩

/-- Division of a rational by a Go `int`, modelling
`price / float64(vcpus)`.  Division by zero yields `0` in the model (Go would
produce an infinity or NaN; no claim under study depends on a zero vCPU
count). -/
def Q.divInt (a : Q) (v : Int) : Q :=
  if h : 0 < v then ⟨a.num, a.den * v, mul_pos a.den_pos h⟩
  else if h2 : v < 0 then ⟨-a.num, a.den * (-v), mul_pos a.den_pos (by omega)⟩
  else Q.zero

/-- Numeric value of a decimal digit. -/
def digitVal (c : Char) : Nat := c.toNat - '0'.toNat

/-- Value of a string of decimal digits, most significant first. -/
def decimalVal (cs : List Char) : Nat := cs.foldl (fun a c => 10 * a + digitVal c) 0

/-- Byte-wise lexicographic order on character lists, modelling Go's `<=` on
strings (the region codes compared by `sort.Strings` are ASCII, where
code-point order and byte order coincide). -/
def lexLE : List Char → List Char → Bool
  | [], _ => true
  | _ :: _, [] => false
  | a :: as, b :: bs =>
    if a.toNat < b.toNat then true
    else if b.toNat < a.toNat then false
    else lexLE as bs

/-- Go string order `a <= b`, as used by `sort.Strings`. -/
def strLE (a b : String) : Prop := lexLE a.toList b.toList = true

instance : DecidableRel strLE := fun a b =>
  inferInstanceAs (Decidable (lexLE a.toList b.toList = true))

theorem lexLE_total (as : List Char) : ∀ bs, lexLE as bs = true ∨ lexLE bs as = true := by
  induction as with
  | nil => intro bs; left; rfl
  | cons a as ih =>
    intro bs
    cases bs with
    | nil => right; rfl
    | cons b bs =>
      simp only [lexLE]
      rcases Nat.lt_trichotomy a.toNat b.toNat with h | h | h
      · left; simp [h]
      · have h1 : ¬ a.toNat < b.toNat := by omega
        have h2 : ¬ b.toNat < a.toNat := by omega
        simpa [h1, h2] using ih bs
      · right; simp [h]

theorem lexLE_trans (as : List Char) :
    ∀ bs cs, lexLE as bs = true → lexLE bs cs = true → lexLE as cs = true := by
  induction as with
  | nil => intro bs cs _ _; rfl
  | cons a as ih =>
    intro bs cs h1 h2
    cases bs with
    | nil => simp [lexLE] at h1
    | cons b bs =>
      cases cs with
      | nil => simp [lexLE] at h2
      | cons c cs =>
        simp only [lexLE] at h1 h2 ⊢
        rcases Nat.lt_trichotomy a.toNat b.toNat with hab | hab | hab
        · rcases Nat.lt_trichotomy b.toNat c.toNat with hbc | hbc | hbc
          · simp [show a.toNat < c.toNat by omega]
          · simp [show a.toNat < c.toNat by omega]
          · simp [show ¬ b.toNat < c.toNat by omega, hbc] at h2
        · rcases Nat.lt_trichotomy b.toNat c.toNat with hbc | hbc | hbc
          · simp [show a.toNat < c.toNat by omega]
          · have hnab : ¬ a.toNat < b.toNat := by omega
            have hnba : ¬ b.toNat < a.toNat := by omega
            have hnbc : ¬ b.toNat < c.toNat := by omega
            have hncb : ¬ c.toNat < b.toNat := by omega
            simp [hnab, hnba] at h1
            simp [hnbc, hncb] at h2
            simp [show ¬ a.toNat < c.toNat by omega, show ¬ c.toNat < a.toNat by omega]
            exact ih bs cs h1 h2
          · simp [show ¬ b.toNat < c.toNat by omega, hbc] at h2
        · simp [show ¬ a.toNat < b.toNat by omega, hab] at h1

instance : IsTotal String strLE := ⟨fun a b => lexLE_total a.toList b.toList⟩

instance : IsTrans String strLE :=
  ⟨fun a b c h1 h2 => lexLE_trans a.toList b.toList c.toList h1 h2⟩

/-- Go `strings.TrimSuffix s "%"` on the character-list view of `s`: removes
one trailing percent sign when present. -/
def trimPercentSuffix (cs : List Char) : List Char :=
  match cs.getLast? with
  | some c => if c = '%' then cs.dropLast else cs
  | none => cs

/-- Go `strconv.Atoi`: an optional sign followed by one or more decimal
digits, with the 64-bit range check (`ErrRange` is an error, hence `none`). -/
def goAtoi (s : String) : Option Int :=
  let core : List Char → Int → Option Int := fun cs sign =>
    if cs.isEmpty then none
    else if cs.all Char.isDigit then
      let v : Int := sign * (decimalVal cs : Int)
      if -(2 ^ 63) ≤ v ∧ v ≤ 2 ^ 63 - 1 then some v else none
    else none
  match s.toList with
  | '+' :: cs => core cs 1
  | '-' :: cs => core cs (-1)
  | cs => core cs 1

/-- Exponent tail of a Go float literal: empty, or `e`/`E`, an optional sign
and one or more digits, consuming the rest of the string. -/
def parseExpTail (cs : List Char) (m : Q) : Option Q :=
  let core : List Char → Bool → Option Q := fun ds neg =>
    if ds.isEmpty then none
    else if ds.all Char.isDigit then
      some (if neg then ⟨m.num, m.den * pow10 (decimalVal ds),
                         mul_pos m.den_pos (pow10_pos _)⟩
            else ⟨m.num * pow10 (decimalVal ds), m.den, m.den_pos⟩)
    else none
  match cs with
  | [] => some m
  | 'e' :: rest =>
    (match rest with
     | '+' :: ds => core ds false
     | '-' :: ds => core ds true
     | ds => core ds false)
  | 'E' :: rest =>
    (match rest with
     | '+' :: ds => core ds false
     | '-' :: ds => core ds true
     | ds => core ds false)
  | _ => none

/-- Unsigned part of a Go float literal: digits, an optional point with
further digits (at least one digit in total), and an optional exponent. -/
def parseUnsignedFloat (cs : List Char) : Option Q :=
  let ip := cs.takeWhile Char.isDigit
  let rest := cs.dropWhile Char.isDigit
  match rest with
  | '.' :: rest2 =>
    let fp := rest2.takeWhile Char.isDigit
    let rest3 := rest2.dropWhile Char.isDigit
    if ip.isEmpty && fp.isEmpty then none
    else
      parseExpTail rest3
        ⟨(decimalVal ip : Int) * pow10 fp.length + (decimalVal fp : Int),
         pow10 fp.length, pow10_pos _⟩
  | _ =>
    if ip.isEmpty then none
    else parseExpTail rest (Q.ofInt (decimalVal ip))

/-- Go `strconv.ParseFloat(s, 64)`, restricted to the decimal forms actually
sent by the pricing endpoint (optional sign, decimal mantissa, optional
exponent).  The exotic inputs Go would additionally accept (`Inf`, `NaN`,
hexadecimal floats, digit-group underscores) are treated as unparseable, and
the resulting value is the exact rational rather than its float64
rounding. -/
def parseGoFloat (s : String) : Option Q :=
  match s.toList with
  | '+' :: cs => parseUnsignedFloat cs
  | '-' :: cs => (parseUnsignedFloat cs).map Q.neg
  | cs => parseUnsignedFloat cs

/-- List underlying a Go slice (`none` is the nil slice). -/
def goToList {α : Type} (s : Option (List α)) : List α := s.getD []

/-- Go `append(s, x)`: appending to nil allocates, so the result is always
non-nil. -/
def goAppend {α : Type} (s : Option (List α)) (x : α) : Option (List α) :=
  some (goToList s ++ [x])

/-- Go `append(s, xs...)`: appending zero elements returns `s` unchanged
(preserving nil-ness); appending at least one element yields a non-nil
slice. -/
def goAppendList {α : Type} (s : Option (List α)) (l : List α) : Option (List α) :=
  match l with
  | [] => s
  | _ :: _ => some (goToList s ++ l)

/-- Go `len` of a slice. -/
def goLen {α : Type} (s : Option (List α)) : Nat := (goToList s).length

/-- Number of keys of a Go map of slices whose slice has at least one
element. -/
def countNonempty {α : Type} (m : List (String × Option (List α))) : Nat :=
  (m.filter (fun p => decide (0 < goLen p.2))).length

/-- Assignment `m[k] = v` on a Go map modelled as an association list with
unique keys: overwrite the existing entry in place, or add one. -/
def mapInsert {β : Type} (m : List (String × β)) (k : String) (v : β) :
    List (String × β) :=
  match m with
  | [] => [(k, v)]
  | p :: t => if p.1 = k then (k, v) :: t else p :: mapInsert t k v

theorem lookup_mapInsert {β : Type} (m : List (String × β)) (k r : String) (v : β) :
    List.lookup r (mapInsert m k v) = if r = k then some v else List.lookup r m := by
  induction m with
  | nil =>
    by_cases h : r = k
    · simp [mapInsert, List.lookup, h]
    · simp [mapInsert, List.lookup, h, beq_false_of_ne h]
  | cons p t ih =>
    by_cases hpk : p.1 = k
    · by_cases hrk : r = k
      · simp [mapInsert, hpk, List.lookup, hrk]
      · have hrp : ¬ r = p.1 := by rw [hpk]; exact hrk
        simp [mapInsert, hpk, List.lookup, hrk, beq_false_of_ne hrp,
          beq_false_of_ne hrk]
    · by_cases hrp : r = p.1
      · have hrk : ¬ r = k := by rw [hrp]; exact hpk
        simp [mapInsert, hpk, List.lookup, hrp, hrk]
      · simp [mapInsert, hpk, List.lookup, beq_false_of_ne hrp, ih]

instance {ε α : Type} [DecidableEq ε] [DecidableEq α] : DecidableEq (Except ε α)
  | .error e1, .error e2 =>
    if h : e1 = e2 then isTrue (by rw [h]) else isFalse (by intro he; cases he; exact h rfl)
  | .error _, .ok _ => isFalse (by intro he; cases he)
  | .ok _, .error _ => isFalse (by intro he; cases he)
  | .ok a1, .ok a2 =>
    if h : a1 = a2 then isTrue (by rw [h]) else isFalse (by intro he; cases he; exact h rfl)

/-- JSON marshalling of a Go slice by `encoding/json`: the nil slice is the
JSON value `null`, a non-nil slice is an array of its encoded elements. -/
def encodeGoSlice {α : Type} (enc : α → String) (s : Option (List α)) : String :=
  match s with
  | none => "null"
  | some l => "[" ++ String.intercalate "," (l.map enc) ++ "]"

/-!
Iteration 1: the first program in `src/fetch_spot_data.go` (the one whose
output schema the static front end reads).
-/

namespace Iter1

/-- Go struct `Instance` (iteration 1): an EC2 instance type and its pricing
details, exactly as decoded from the pricing response. -/
structure Instance where
  InstanceType : String
  VCPUS : Int
  Memory : String
  SpotSavingRate : String
  SpotPrice : String
deriving DecidableEq

/-- Go struct `Region`: one entry of the AWS locations directory. -/
structure Region where
  name : String
  code : String
  type : String
  label : String
  continent : String
deriving DecidableEq

/-- Go struct `GlobalDeal`: a leaderboard entry. -/
structure GlobalDeal where
  InstanceType : String
  VCPUS : Int
  Memory : String
  SpotPrice : Q
  PricePerVCPU : Q
  Region : String
deriving DecidableEq

/-- Go struct `SpotData` (iteration 1).  The `Regions` map is an association
list with unique keys; both slice-valued fields keep their Go nil-ness. -/
structure SpotData where
  LastUpdated : String
  Regions : List (String × Option (List Instance))
  GlobalTop5 : Option (List GlobalDeal)
deriving DecidableEq

/-- Price per vCPU as the code computes it: `strconv.ParseFloat` of the
`SpotPrice` string with the error ignored (so an unparseable price counts as
`0`), divided by the vCPU count. -/
def pricePerVCPU (inst : Instance) : Q :=
  Q.divInt ((parseGoFloat inst.SpotPrice).getD Q.zero) inst.VCPUS

/-- Comparison used by the `sort.Slice` call in `getSpotDeals`: non-decreasing
price per vCPU. -/
def offerLE (a b : Instance) : Prop := Q.le (pricePerVCPU a) (pricePerVCPU b)

instance : DecidableRel offerLE := fun a b =>
  inferInstanceAs (Decidable (Q.le (pricePerVCPU a) (pricePerVCPU b)))

instance : IsTotal Instance offerLE := ⟨fun _ _ => Q.le_total _ _⟩

instance : IsTrans Instance offerLE := ⟨fun _ _ _ h1 h2 => Q.le_trans h1 h2⟩

/-- The savings filter of `getSpotDeals`: `strconv.Atoi` of the
`SpotSavingRate` string with a trailing percent sign stripped must succeed
and exceed 50. -/
def keepInstance (inst : Instance) : Bool :=
  match goAtoi (String.mk (trimPercentSuffix inst.SpotSavingRate.toList)) with
  | some savingsRate => decide (savingsRate > 50)
  | none => false

/-- Go `getSpotDeals` (iteration 1).  The HTTP request, body read and JSON
unmarshal are summarised by the input: `.error` for any of those failures,
`.ok prices` for a decoded `Prices` array.  On success the offers passing the
savings filter are collected by `append` (nil when none pass) and sorted by
price per vCPU. -/
def getSpotDeals (resp : Except Unit (List Instance)) :
    Except Unit (Option (List Instance)) :=
  match resp with
  | .error e => .error e
  | .ok prices =>
    let highSavingsInstances :=
      prices.foldl
        (fun acc inst => if keepInstance inst then goAppend acc inst else acc)
        (none : Option (List Instance))
    .ok (highSavingsInstances.map (List.insertionSort offerLE))

/-- Region codes extracted from the directory document: codes of the entries
whose type tag is exactly `"AWS Region"`, sorted ascending by `sort.Strings`.
The Go map iteration feeding the loop has arbitrary order, so the model takes
the directory entries as a list in an arbitrary order; the final sort makes
every property proved below independent of that order. -/
def regionCodes (entries : List Region) : List String :=
  List.insertionSort strLE
    (entries.foldl (fun acc r => if r.type = "AWS Region" then acc ++ [r.code] else acc) [])

/-- Go `fetchRegions` (iteration 1): fails when the directory fetch or its
JSON decoding fails, otherwise returns the sorted codes of the primary-region
entries. -/
def fetchRegions (dir : Except Unit (List Region)) : Except Unit (List String) :=
  match dir with
  | .error e => .error e
  | .ok entries => .ok (regionCodes entries)

/-- Leaderboard entry built from region `r`'s first (lowest price-per-vCPU)
offer, as in the body of the goroutine in `fetchSpotData`. -/
def mkGlobalDeal (r : String) (d : Instance) : GlobalDeal :=
  { InstanceType := d.InstanceType
    VCPUS := d.VCPUS
    Memory := d.Memory
    SpotPrice := (parseGoFloat d.SpotPrice).getD Q.zero
    PricePerVCPU := pricePerVCPU d
    Region := r }

/-- Fan-in loop of `fetchSpotData`: one iteration per region.  A failed
`getSpotDeals` is logged and contributes nothing; a successful one installs
the region's snapshot in the map and, when the snapshot is non-empty, appends
the leaderboard entry built from its first offer.  The goroutines complete in
an arbitrary order under a mutex; the model processes them in list order,
which is harmless because the map is keyed and the pooled deals are sorted
before use. -/
def fetchLoop (fetch : String → Except Unit (List Instance)) :
    List String → List (String × Option (List Instance)) →
    Option (List GlobalDeal) →
    List (String × Option (List Instance)) × Option (List GlobalDeal)
  | [], regionsMap, globalDeals => (regionsMap, globalDeals)
  | r :: rest, regionsMap, globalDeals =>
    match getSpotDeals (fetch r) with
    | .error _ => fetchLoop fetch rest regionsMap globalDeals
    | .ok deals =>
      let regionsMap2 := mapInsert regionsMap r deals
      let globalDeals2 :=
        match deals with
        | some (d :: _) => goAppend globalDeals (mkGlobalDeal r d)
        | _ => globalDeals
      fetchLoop fetch rest regionsMap2 globalDeals2

/-- Per-region outcome inside `fetchSpotData`. -/
def regionResult (fetch : String → Except Unit (List Instance)) (r : String) :
    Except Unit (Option (List Instance)) :=
  getSpotDeals (fetch r)

/-- Leaderboard contribution of one region: the first offer of a successful
non-empty snapshot, nothing otherwise. -/
def bestOf (fetch : String → Except Unit (List Instance)) (r : String) :
    Option GlobalDeal :=
  match regionResult fetch r with
  | .ok (some (d :: _)) => some (mkGlobalDeal r d)
  | _ => none

/-- Map entry contributed by one region: present exactly when the fetch
succeeded. -/
def regEntry (fetch : String → Except Unit (List Instance)) (r : String) :
    Option (String × Option (List Instance)) :=
  match regionResult fetch r with
  | .ok v => some (r, v)
  | .error _ => none

/-- Comparison used by the `sort.Slice` call on the global deals. -/
def dealLE (a b : GlobalDeal) : Prop := Q.le a.PricePerVCPU b.PricePerVCPU

instance : DecidableRel dealLE := fun a b =>
  inferInstanceAs (Decidable (Q.le a.PricePerVCPU b.PricePerVCPU))

instance : IsTotal GlobalDeal dealLE := ⟨fun _ _ => Q.le_total _ _⟩

instance : IsTrans GlobalDeal dealLE := ⟨fun _ _ _ h1 h2 => Q.le_trans h1 h2⟩

/-- Go `fetchSpotData` (iteration 1).  Inputs: the directory document, the
pricing outcome for each region, and the RFC 3339 timestamp taken at the
start of the run.  A directory failure is `log.Fatalf`, modelled as `.error`;
otherwise all regions are fetched, the deals are sorted by price per vCPU and
the first five become the leaderboard. -/
def fetchSpotData (dir : Except Unit (List Region))
    (fetch : String → Except Unit (List Instance)) (now : String) :
    Except Unit SpotData :=
  match fetchRegions dir with
  | .error e => .error e
  | .ok regions =>
    let st := fetchLoop fetch regions [] none
    let sortedDeals := st.2.map (List.insertionSort dealLE)
    let globalTop5 :=
      if goLen sortedDeals > 5 then some ((goToList sortedDeals).take 5)
      else sortedDeals
    .ok { LastUpdated := now, Regions := st.1, GlobalTop5 := globalTop5 }

/-- Go `main` (iteration 1): fetch, then create `docs/spot_data.json` and
encode the dataset into it.  The file state is the `Option SpotData` content
of that path; a fatal error inside `fetchSpotData` terminates the run before
the file is opened. -/
def main (file0 : Option SpotData) (dir : Except Unit (List Region))
    (fetch : String → Except Unit (List Instance)) (now : String) :
    Option SpotData × Except Unit Unit :=
  match fetchSpotData dir fetch now with
  | .error e => (file0, .error e)
  | .ok data => (some data, .ok ())

end Iter1

/-!
Iteration 2: the second program in `src/fetch_spot_data.go` (the one with
`readExistingData` / `dataChanged` / `writeDataToFile`).  This is the only
code in the repository implementing the run-to-run change detection cited by
the idempotence and carry-over claims.
-/

namespace Iter2

/-- Go struct `Instance` (iteration 2): as in iteration 1 plus the stored
`PricePerVCPU` field filled in during filtering. -/
structure Instance where
  InstanceType : String
  VCPUS : Int
  Memory : String
  SpotSavingRate : String
  SpotPrice : String
  PricePerVCPU : Q
deriving DecidableEq

/-- Go struct `SpotData` (iteration 2): the leaderboard reuses `Instance`. -/
structure SpotData where
  LastUpdated : String
  Regions : List (String × Option (List Instance))
  GlobalTop5 : Option (List Instance)
deriving DecidableEq

/-- Comparison used by both `sort.Slice` calls of iteration 2: the stored
`PricePerVCPU` field. -/
def offerLE (a b : Instance) : Prop := Q.le a.PricePerVCPU b.PricePerVCPU

instance : DecidableRel offerLE := fun a b =>
  inferInstanceAs (Decidable (Q.le a.PricePerVCPU b.PricePerVCPU))

instance : IsTotal Instance offerLE := ⟨fun _ _ => Q.le_total _ _⟩

instance : IsTrans Instance offerLE := ⟨fun _ _ _ h1 h2 => Q.le_trans h1 h2⟩

/-- Go `getSpotDeals` (iteration 2).  An HTTP error is logged and yields nil
(`none` input); an unmarshal error is ignored, leaving an empty `Prices`
array (callers pass `some []`).  Candidates whose savings rate, parsed with
the error ignored (so non-numeric counts as `0`), exceeds 50 are kept with
`PricePerVCPU` recomputed from the parsed price (error ignored, so `0`),
then sorted. -/
def getSpotDeals (resp : Option (List Instance)) : Option (List Instance) :=
  match resp with
  | none => none
  | some prices =>
    let highSavingsInstances :=
      prices.foldl
        (fun acc inst =>
          let savingsRate :=
            (goAtoi (String.mk (trimPercentSuffix inst.SpotSavingRate.toList))).getD 0
          if savingsRate > 50 then
            let price := (parseGoFloat inst.SpotPrice).getD Q.zero
            goAppend acc { inst with PricePerVCPU := Q.divInt price inst.VCPUS }
          else acc)
        (none : Option (List Instance))
    highSavingsInstances.map (List.insertionSort offerLE)

/-- Go `fetchRegions` (iteration 2): reads the directory as a map from region
code to a descriptor with a `type` field, so the input is a list of
`(code, type)` pairs; an HTTP error is `log.Fatalf` (`.error`), a decode
error is ignored (callers pass `.ok []`). -/
def regionCodes (entries : List (String × String)) : List String :=
  List.insertionSort strLE
    (entries.foldl (fun acc p => if p.2 = "AWS Region" then acc ++ [p.1] else acc) [])

/-- Go `fetchRegions` (iteration 2), wrapping `regionCodes`. -/
def fetchRegions (dir : Except Unit (List (String × String))) :
    Except Unit (List String) :=
  match dir with
  | .error e => .error e
  | .ok entries => .ok (regionCodes entries)

/-- Loop body of `fetchSpotData` (iteration 2): every region — including one
whose fetch failed, which contributes a nil snapshot — is installed in the
map, and all its instances are pooled. -/
def fetchLoop (fetch : String → Option (List Instance)) :
    List String → List (String × Option (List Instance)) → Option (List Instance) →
    List (String × Option (List Instance)) × Option (List Instance)
  | [], regionsMap, allInstances => (regionsMap, allInstances)
  | r :: rest, regionsMap, allInstances =>
    let instances := getSpotDeals (fetch r)
    fetchLoop fetch rest (mapInsert regionsMap r instances)
      (goAppendList allInstances (goToList instances))

/-- Go `fetchSpotData` (iteration 2): sequential fetch over all regions, then
the pooled instances are sorted by the stored `PricePerVCPU` and the first
five become the leaderboard. -/
def fetchSpotData (dir : Except Unit (List (String × String)))
    (fetch : String → Option (List Instance)) (now : String) :
    Except Unit SpotData :=
  match fetchRegions dir with
  | .error e => .error e
  | .ok regions =>
    let st := fetchLoop fetch regions [] none
    let sortedAll := st.2.map (List.insertionSort offerLE)
    let globalTop5 :=
      if goLen sortedAll > 5 then some ((goToList sortedAll).take 5)
      else sortedAll
    .ok { LastUpdated := now, Regions := st.1, GlobalTop5 := globalTop5 }

/-- Go zero value of `SpotData`: what `readExistingData` leaves behind when
the file is missing or unreadable (its error is ignored by `main`). -/
def zeroSpotData : SpotData :=
  { LastUpdated := "", Regions := [], GlobalTop5 := none }

/-- Go `readExistingData`: parse the persisted file, with the JSON round trip
(which is exact for this schema) modelled as the identity; a missing or
unreadable file leaves the zero value. -/
def readExistingData (file : Option SpotData) : SpotData :=
  file.getD zeroSpotData

/-- Canonical form of a dataset under `json.Marshal`: object keys of a Go map
are emitted in sorted order, so two datasets marshal to the same bytes
exactly when their timestamps, key-sorted region lists and leaderboards
coincide. -/
def canon (d : SpotData) : String × List (String × Option (List Instance)) × Option (List Instance) :=
  (d.LastUpdated,
   List.insertionSort (fun p q => strLE p.1 q.1) d.Regions,
   d.GlobalTop5)

/-- Go `dataChanged`: compare the `json.Marshal` serialisations of the old
and new datasets. -/
def dataChanged (old nw : SpotData) : Bool := decide (¬ canon old = canon nw)

/-- Go `writeDataToFile`: replace the file content wholesale (write errors
are ignored). -/
def writeDataToFile (d : SpotData) (_file : Option SpotData) : Option SpotData :=
  some d

/-- Go `main` (iteration 2): fetch, read the old file, and rewrite the file
only when `dataChanged` reports a difference.  Returns the resulting file
content and, on a completed run, whether the file was rewritten. -/
def main (file0 : Option SpotData) (dir : Except Unit (List (String × String)))
    (fetch : String → Option (List Instance)) (now : String) :
    Option SpotData × Except Unit Bool :=
  match fetchSpotData dir fetch now with
  | .error e => (file0, .error e)
  | .ok newData =>
    let oldData := readExistingData file0
    if dataChanged oldData newData then (writeDataToFile newData file0, .ok true)
    else (file0, .ok false)

end Iter2

/-!
Helper lemmas about the iteration-1 embedding.
-/

namespace Iter1

/-- The savings filter in terms of the parsed rate. -/
theorem keepInstance_iff (i : Instance) :
    keepInstance i = true ↔
      ∃ savingsRate : Int,
        goAtoi (String.mk (trimPercentSuffix i.SpotSavingRate.toList)) = some savingsRate ∧
        50 < savingsRate := by
  unfold keepInstance
  cases h : goAtoi (String.mk (trimPercentSuffix i.SpotSavingRate.toList)) with
  | none => simp [h]
  | some savingsRate => simp [h]

/-- The filtering fold of `getSpotDeals` collects exactly the offers passing
the savings filter, in order, after whatever the accumulator held. -/
theorem highSavings_eq_filter (prices : List Instance) :
    ∀ acc : Option (List Instance),
      goToList (prices.foldl
        (fun acc inst => if keepInstance inst then goAppend acc inst else acc) acc) =
      goToList acc ++ prices.filter keepInstance := by
  induction prices with
  | nil => intro acc; simp
  | cons p ps ih =>
    intro acc
    rw [List.foldl_cons, ih]
    by_cases hk : keepInstance p
    · simp [hk, goAppend, goToList, List.filter_cons]
    · have hk2 : keepInstance p = false := by simpa using hk
      simp [hk2, List.filter_cons]

/-- The filtering fold yields the nil slice exactly when it started nil and
nothing passed the filter. -/
theorem highSavings_eq_none (prices : List Instance) :
    ∀ acc : Option (List Instance),
      (prices.foldl
        (fun acc inst => if keepInstance inst then goAppend acc inst else acc) acc) = none ↔
      (acc = none ∧ prices.filter keepInstance = []) := by
  induction prices with
  | nil => intro acc; simp
  | cons p ps ih =>
    intro acc
    rw [List.foldl_cons]
    by_cases hk : keepInstance p
    · rw [ih]
      simp [hk, goAppend, List.filter_cons]
    · have hk2 : keepInstance p = false := by simpa using hk
      rw [ih]
      simp [hk2, List.filter_cons]

/-- Sorting an optional slice: the underlying list is a permutation of the
original. -/
theorem toList_map_sort_perm {α : Type} (r : α → α → Prop) [DecidableRel r]
    (s : Option (List α)) :
    List.Perm (goToList (s.map (List.insertionSort r))) (goToList s) := by
  cases s with
  | none => simp [goToList]
  | some l => simpa [goToList] using List.perm_insertionSort r l

/-- Sorting an optional slice yields a sorted underlying list. -/
theorem sorted_toList_map_sort {α : Type} (r : α → α → Prop) [DecidableRel r]
    [IsTotal α r] [IsTrans α r] (s : Option (List α)) :
    List.Sorted r (goToList (s.map (List.insertionSort r))) := by
  cases s with
  | none => simp [goToList]
  | some l => simpa [goToList] using List.sorted_insertionSort r l

/-- On a successful response, `getSpotDeals` succeeds and its snapshot holds
exactly the offers passing the savings filter. -/
theorem getSpotDeals_ok (prices : List Instance) :
    ∃ s, getSpotDeals (.ok prices) = .ok s ∧
      List.Perm (goToList s) (prices.filter keepInstance) := by
  refine ⟨_, rfl, ?_⟩
  calc List.Perm _ (goToList (prices.foldl
        (fun acc inst => if keepInstance inst then goAppend acc inst else acc)
        (none : Option (List Instance)))) := toList_map_sort_perm _ _
    _ = _ := by rw [highSavings_eq_filter]; simp [goToList]

/-- Lookup in the map built by the fan-in loop: a region maps to its fetched
snapshot when its fetch succeeded and it was dispatched, and falls back to
the initial map otherwise. -/
theorem lookup_fetchLoop (fetch : String → Except Unit (List Instance))
    (rs : List String) :
    ∀ (m : List (String × Option (List Instance))) (g : Option (List GlobalDeal))
      (r : String),
      List.lookup r (fetchLoop fetch rs m g).1 =
        match regionResult fetch r with
        | .ok v => if r ∈ rs then some v else List.lookup r m
        | .error _ => List.lookup r m := by
  induction rs with
  | nil =>
    intro m g r
    cases h : regionResult fetch r <;> simp [fetchLoop]
  | cons a rest ih =>
    intro m g r
    show List.lookup r (fetchLoop fetch (a :: rest) m g).1 = _
    rw [fetchLoop]
    cases ha : regionResult fetch a with
    | error e =>
      rw [show getSpotDeals (fetch a) = .error e from ha]
      rw [ih]
      cases hr : regionResult fetch r with
      | error e2 => rfl
      | ok v =>
        have hne : r ≠ a := by
          intro he; rw [he, ha] at hr; cases hr
        simp [List.mem_cons, hne]
    | ok v1 =>
      rw [show getSpotDeals (fetch a) = .ok v1 from ha]
      show List.lookup r (fetchLoop fetch rest (mapInsert m a v1) _).1 = _
      rw [ih]
      cases hr : regionResult fetch r with
      | error e2 =>
        have hne : r ≠ a := by
          intro he; rw [he, ha] at hr; cases hr
        rw [lookup_mapInsert]
        simp [hne]
      | ok v =>
        by_cases hmem : r ∈ rest
        · simp [hmem, List.mem_cons]
        · rw [lookup_mapInsert]
          by_cases hra : r = a
          · have : v = v1 := by rw [hra, ha] at hr; cases hr; rfl
            subst this
            simp [hmem, hra]
          · simp [hmem, hra, List.mem_cons]

/-- The deals pooled by the fan-in loop are the initial pool followed by one
best deal per dispatched region with a successful non-empty snapshot, in
dispatch order. -/
theorem deals_fetchLoop (fetch : String → Except Unit (List Instance))
    (rs : List String) :
    ∀ (m : List (String × Option (List Instance))) (g : Option (List GlobalDeal)),
      goToList (fetchLoop fetch rs m g).2 = goToList g ++ rs.filterMap (bestOf fetch) := by
  induction rs with
  | nil => intro m g; simp [fetchLoop]
  | cons a rest ih =>
    intro m g
    rw [fetchLoop]
    cases ha : regionResult fetch a with
    | error e =>
      rw [show getSpotDeals (fetch a) = .error e from ha, ih]
      simp [List.filterMap_cons, bestOf, ha]
    | ok v1 =>
      rw [show getSpotDeals (fetch a) = .ok v1 from ha]
      match v1, ha with
      | some (d :: t), ha =>
        show goToList (fetchLoop fetch rest _ (goAppend g (mkGlobalDeal a d))).2 = _
        rw [ih]
        simp [List.filterMap_cons, bestOf, ha, goAppend, goToList]
      | some [], ha =>
        show goToList (fetchLoop fetch rest _ g).2 = _
        rw [ih]
        simp [List.filterMap_cons, bestOf, ha]
      | none, ha =>
        show goToList (fetchLoop fetch rest _ g).2 = _
        rw [ih]
        simp [List.filterMap_cons, bestOf, ha]

/-- The deal pool of the fan-in loop is nil exactly when it started nil and
no dispatched region contributed a best deal. -/
theorem deals_fetchLoop_none (fetch : String → Except Unit (List Instance))
    (rs : List String) :
    ∀ (m : List (String × Option (List Instance))) (g : Option (List GlobalDeal)),
      (fetchLoop fetch rs m g).2 = none ↔
        (g = none ∧ rs.filterMap (bestOf fetch) = []) := by
  induction rs with
  | nil => intro m g; simp [fetchLoop]
  | cons a rest ih =>
    intro m g
    rw [fetchLoop]
    cases ha : regionResult fetch a with
    | error e =>
      rw [show getSpotDeals (fetch a) = .error e from ha, ih]
      simp [List.filterMap_cons, bestOf, ha]
    | ok v1 =>
      rw [show getSpotDeals (fetch a) = .ok v1 from ha]
      match v1, ha with
      | some (d :: t), ha =>
        show (fetchLoop fetch rest _ (goAppend g (mkGlobalDeal a d))).2 = none ↔ _
        rw [ih]
        simp [List.filterMap_cons, bestOf, ha, goAppend]
      | some [], ha =>
        show (fetchLoop fetch rest _ g).2 = none ↔ _
        rw [ih]
        simp [List.filterMap_cons, bestOf, ha]
      | none, ha =>
        show (fetchLoop fetch rest _ g).2 = none ↔ _
        rw [ih]
        simp [List.filterMap_cons, bestOf, ha]

end Iter1

namespace Iter1

/-- Inserting a fresh key appends it. -/
theorem mapInsert_append {β : Type} (m : List (String × β)) (k : String) (v : β)
    (h : ∀ p ∈ m, p.1 ≠ k) : mapInsert m k v = m ++ [(k, v)] := by
  induction m with
  | nil => rfl
  | cons p t ih =>
    have hp : p.1 ≠ k := h p (List.mem_cons_self p t)
    simp only [mapInsert, hp, if_false]
    rw [ih (fun q hq => h q (List.mem_cons_of_mem p hq))]
    simp

/-- With pairwise distinct dispatched regions, none colliding with the
initial map, the fan-in loop's map is the initial map followed by one entry
per successfully fetched region, in dispatch order. -/
theorem map_fetchLoop_of_nodup (fetch : String → Except Unit (List Instance))
    (rs : List String) :
    ∀ (m : List (String × Option (List Instance))) (g : Option (List GlobalDeal)),
      rs.Nodup → (∀ x ∈ rs, ∀ p ∈ m, p.1 ≠ x) →
      (fetchLoop fetch rs m g).1 = m ++ rs.filterMap (regEntry fetch) := by
  induction rs with
  | nil => intro m g _ _; simp [fetchLoop]
  | cons a rest ih =>
    intro m g hnd hm
    rw [fetchLoop]
    cases ha : regionResult fetch a with
    | error e =>
      rw [show getSpotDeals (fetch a) = .error e from ha]
      rw [ih m g (List.Nodup.of_cons hnd)
        (fun x hx p hp => hm x (List.mem_cons_of_mem a hx) p hp)]
      simp [List.filterMap_cons, regEntry, ha]
    | ok v1 =>
      rw [show getSpotDeals (fetch a) = .ok v1 from ha]
      show (fetchLoop fetch rest (mapInsert m a v1) _).1 = _
      have hins : mapInsert m a v1 = m ++ [(a, v1)] :=
        mapInsert_append m a v1 (fun p hp => hm a (List.mem_cons_self a rest) p hp)
      rw [ih (mapInsert m a v1) _ (List.Nodup.of_cons hnd) ?fresh]
      · rw [hins]
        simp [List.filterMap_cons, regEntry, ha]
      case fresh =>
        intro x hx p hp
        rw [hins] at hp
        rcases List.mem_append.mp hp with h1 | h1
        · exact hm x (List.mem_cons_of_mem a hx) p h1
        · have hpa : p = (a, v1) := by simpa using h1
          rw [hpa]
          intro he
          have hax : a = x := he
          rw [hax] at hnd
          exact (List.nodup_cons.mp hnd).1 hx

/-- One leaderboard deal per region with a non-empty snapshot: both sides
count the successfully fetched regions whose snapshot is non-empty. -/
theorem count_regEntry_eq_length_bestOf (fetch : String → Except Unit (List Instance))
    (rs : List String) :
    countNonempty (rs.filterMap (regEntry fetch)) =
      (rs.filterMap (bestOf fetch)).length := by
  induction rs with
  | nil => rfl
  | cons a rest ih =>
    cases ha : regionResult fetch a with
    | error e =>
      simp only [List.filterMap_cons, regEntry, bestOf, ha]
      exact ih
    | ok v1 =>
      match v1, ha with
      | some (d :: t), ha =>
        simp only [List.filterMap_cons, regEntry, bestOf, ha]
        simp only [countNonempty, List.filter_cons]
        have : (0 : Nat) < goLen (some (d :: t)) := by simp [goLen, goToList]
        simp only [decide_eq_true this, if_true]
        simpa [countNonempty] using congrArg Nat.succ ih
      | some [], ha =>
        simp only [List.filterMap_cons, regEntry, bestOf, ha]
        simp only [countNonempty, List.filter_cons]
        have : ¬ (0 : Nat) < goLen (some ([] : List Instance)) := by simp [goLen, goToList]
        simp only [decide_eq_false this, if_false]
        exact ih
      | none, ha =>
        simp only [List.filterMap_cons, regEntry, bestOf, ha]
        simp only [countNonempty, List.filter_cons]
        have : ¬ (0 : Nat) < goLen (none : Option (List Instance)) := by simp [goLen, goToList]
        simp only [decide_eq_false this, if_false]
        exact ih

/-- A best deal carries its region's identifier. -/
theorem bestOf_region {fetch : String → Except Unit (List Instance)} {r : String}
    {g : GlobalDeal} (h : bestOf fetch r = some g) : g.Region = r := by
  unfold bestOf at h
  cases hr : regionResult fetch r with
  | error e => rw [hr] at h; cases h
  | ok v =>
    match v, hr with
    | some (d :: t), hr => rw [hr] at h; cases h; rfl
    | some [], hr => rw [hr] at h; cases h
    | none, hr => rw [hr] at h; cases h

/-- The regions of the pooled best deals form a sublist of the dispatched
regions. -/
theorem map_region_bestOf_sublist (fetch : String → Except Unit (List Instance))
    (rs : List String) :
    List.Sublist ((rs.filterMap (bestOf fetch)).map GlobalDeal.Region) rs := by
  induction rs with
  | nil => simp
  | cons a rest ih =>
    cases ha : bestOf fetch a with
    | none =>
      simp only [List.filterMap_cons, ha]
      exact ih.cons a
    | some g =>
      simp only [List.filterMap_cons, ha, List.map_cons]
      rw [bestOf_region ha]
      exact ih.cons₂ a

end Iter1

namespace Iter1

/-- Inversion for a region's leaderboard contribution. -/
theorem bestOf_eq_some {fetch : String → Except Unit (List Instance)} {r : String}
    {g : GlobalDeal} (h : bestOf fetch r = some g) :
    ∃ d t, regionResult fetch r = .ok (some (d :: t)) ∧ g = mkGlobalDeal r d := by
  unfold bestOf at h
  cases hr : regionResult fetch r with
  | error e => rw [hr] at h; cases h
  | ok v =>
    match v, hr with
    | some (d :: t), hr => rw [hr] at h; cases h; exact ⟨d, t, rfl, rfl⟩
    | some [], hr => rw [hr] at h; cases h
    | none, hr => rw [hr] at h; cases h

/-- Unfolding of `fetchSpotData` on a successfully fetched directory. -/
theorem fetchSpotData_eq (entries : List Region)
    (fetch : String → Except Unit (List Instance)) (now : String) :
    fetchSpotData (.ok entries) fetch now = .ok
      { LastUpdated := now
        Regions := (fetchLoop fetch (regionCodes entries) [] none).1
        GlobalTop5 :=
          if goLen ((fetchLoop fetch (regionCodes entries) [] none).2.map
              (List.insertionSort dealLE)) > 5
          then some ((goToList ((fetchLoop fetch (regionCodes entries) [] none).2.map
              (List.insertionSort dealLE))).take 5)
          else (fetchLoop fetch (regionCodes entries) [] none).2.map
              (List.insertionSort dealLE) } := rfl

/-- The raw (unsorted) region-code accumulation is a `filterMap`. -/
theorem regionCodesRaw_eq (entries : List Region) :
    ∀ acc : List String,
      (entries.foldl (fun acc r => if r.type = "AWS Region" then acc ++ [r.code] else acc) acc) =
        acc ++ entries.filterMap
          (fun r => if r.type = "AWS Region" then some r.code else none) := by
  induction entries with
  | nil => intro acc; simp
  | cons e es ih =>
    intro acc
    rw [List.foldl_cons, ih]
    by_cases ht : e.type = "AWS Region"
    · simp [ht, List.filterMap_cons]
    · simp [ht, List.filterMap_cons]

end Iter1

namespace Iter2

/-- Lookup in the map built by iteration 2's loop: every dispatched region is
installed, a failed fetch contributing its nil snapshot. -/
theorem lookup_fetchLoop2 (fetch : String → Option (List Instance)) (rs : List String) :
    ∀ (m : List (String × Option (List Instance))) (g : Option (List Instance))
      (r : String),
      List.lookup r (fetchLoop fetch rs m g).1 =
        if r ∈ rs then some (getSpotDeals (fetch r)) else List.lookup r m := by
  induction rs with
  | nil => intro m g r; simp [fetchLoop]
  | cons a rest ih =>
    intro m g r
    rw [fetchLoop, ih]
    by_cases hmem : r ∈ rest
    · simp [hmem, List.mem_cons]
    · rw [lookup_mapInsert]
      by_cases hra : r = a
      · subst hra
        simp [hmem]
      · simp [hmem, hra, List.mem_cons]

/-- Iteration 2's `fetchSpotData` always succeeds once the directory is
fetched. -/
theorem fetchSpotData_ok (entries : List (String × String))
    (fetch : String → Option (List Instance)) (now : String) :
    ∃ nd, fetchSpotData (.ok entries) fetch now = .ok nd := ⟨_, rfl⟩

/-- Unfolding of iteration 2's `main` on a completed fetch. -/
theorem main_eq {file0 : Option SpotData} {entries : List (String × String)}
    {fetch : String → Option (List Instance)} {now : String} {nd : SpotData}
    (h : fetchSpotData (.ok entries) fetch now = .ok nd) :
    main file0 (.ok entries) fetch now =
      if dataChanged (readExistingData file0) nd then (some nd, .ok true)
      else (file0, .ok false) := by
  unfold main
  rw [h]
  rfl

/-- A dataset never differs from itself under `json.Marshal` comparison. -/
theorem dataChanged_self (d : SpotData) : dataChanged d d = false := by
  simp [dataChanged]

/-- The timestamp is part of the marshalled bytes: two datasets equal except
for `LastUpdated` always count as changed. -/
theorem dataChanged_of_ne_timestamp {d1 d2 : SpotData}
    (h : d1.LastUpdated ≠ d2.LastUpdated) : dataChanged d1 d2 = true := by
  simp only [dataChanged, decide_eq_true_iff]
  intro he
  exact h (congrArg Prod.fst he)

end Iter2

namespace Iter1

/-- Unfolding of `getSpotDeals` on a successful response. -/
theorem getSpotDeals_ok_eq (prices : List Instance) :
    getSpotDeals (.ok prices) = .ok ((prices.foldl
      (fun acc inst => if keepInstance inst then goAppend acc inst else acc)
      (none : Option (List Instance))).map (List.insertionSort offerLE)) := rfl

/-- Example offer passing the savings filter (price per vCPU 0.0125). -/
def offerGood : Instance :=
  { InstanceType := "c5.xlarge", VCPUS := 4, Memory := "8 GiB",
    SpotSavingRate := "60%", SpotPrice := "0.05" }

/-- Example offer passing the savings filter with a higher price per vCPU
(0.05). -/
def offerHigh : Instance :=
  { InstanceType := "m5.2xlarge", VCPUS := 8, Memory := "32 GiB",
    SpotSavingRate := "70%", SpotPrice := "0.40" }

/-- Example offer failing the savings filter (45% is not above 50%). -/
def offerLowSavings : Instance :=
  { InstanceType := "m5.xlarge", VCPUS := 4, Memory := "16 GiB",
    SpotSavingRate := "45%", SpotPrice := "0.02" }

/-- Example offer with a qualifying savings rate but an unparseable spot
price. -/
def offerBadPrice : Instance :=
  { InstanceType := "x2idn.xlarge", VCPUS := 4, Memory := "64 GiB",
    SpotSavingRate := "60%", SpotPrice := "n/a" }

/-- Example directory entry for a primary region. -/
def regionUSEast : Region :=
  { name := "US East (N. Virginia)", code := "us-east-1", type := "AWS Region",
    label := "", continent := "North America" }

/-- Second directory entry carrying the same code as `regionDupA`. -/
def regionDupA : Region :=
  { name := "US East (N. Virginia)", code := "us-east-1", type := "AWS Region",
    label := "", continent := "North America" }

/-- A distinct directory entry whose code collides with `regionDupA`. -/
def regionDupB : Region :=
  { name := "US East (duplicate entry)", code := "us-east-1", type := "AWS Region",
    label := "", continent := "North America" }

/-- Pricing source returning two qualifying offers, unsorted. -/
def fetchAllGood : String → Except Unit (List Instance) :=
  fun _ => .ok [offerHigh, offerGood]

/-- Pricing source whose only candidate fails the savings filter. -/
def fetchLowOnly : String → Except Unit (List Instance) :=
  fun _ => .ok [offerLowSavings]

/-- Pricing source whose only candidate has an unparseable price. -/
def fetchBadPrice : String → Except Unit (List Instance) :=
  fun _ => .ok [offerBadPrice]

end Iter1

/-!
Claim theorems.
-/

/-- C2: every offer contained in a snapshot returned by `getSpotDeals` has a
savings ratio, parsed from the `SpotSavingRate` string after stripping a
trailing percent sign, strictly greater than 50; candidates whose ratio is
non-numeric or at most 50 are discarded (no such offer can be a member). -/
theorem c2_savings_filter (resp : Except Unit (List Iter1.Instance))
    (s : Option (List Iter1.Instance))
    (h : Iter1.getSpotDeals resp = .ok s)
    (i : Iter1.Instance) (hi : i ∈ goToList s) :
    ∃ savingsRate : Int,
      goAtoi (String.mk (trimPercentSuffix i.SpotSavingRate.toList)) = some savingsRate ∧
      50 < savingsRate := by
  cases resp with
  | error e => simp [Iter1.getSpotDeals] at h
  | ok prices =>
    obtain ⟨s2, hs2, hperm⟩ := Iter1.getSpotDeals_ok prices
    rw [hs2] at h
    injection h with h
    subst h
    have hmem := hperm.mem_iff.mp hi
    exact (Iter1.keepInstance_iff i).mp (List.of_mem_filter hmem)

/-- Witness for C2 at a concrete snapshot holding `offerGood` (rate 60%). -/
theorem c2_savings_filter_witness :
    ∃ savingsRate : Int,
      goAtoi (String.mk (trimPercentSuffix Iter1.offerGood.SpotSavingRate.toList)) =
        some savingsRate ∧ 50 < savingsRate :=
  c2_savings_filter (.ok [Iter1.offerGood]) (some [Iter1.offerGood]) (by decide)
    Iter1.offerGood (by decide)

/-- C3: every snapshot returned by `getSpotDeals` is sorted in non-decreasing
order of price per vCPU (the parsed spot price divided by the vCPU count). -/
theorem c3_snapshot_sorted (resp : Except Unit (List Iter1.Instance))
    (s : Option (List Iter1.Instance))
    (h : Iter1.getSpotDeals resp = .ok s) :
    List.Pairwise (fun a b => Q.le (Iter1.pricePerVCPU a) (Iter1.pricePerVCPU b))
      (goToList s) := by
  cases resp with
  | error e => simp [Iter1.getSpotDeals] at h
  | ok prices =>
    rw [Iter1.getSpotDeals_ok_eq] at h
    injection h with h
    subst h
    exact Iter1.sorted_toList_map_sort Iter1.offerLE _

/-- Witness for C3: a two-offer response arriving out of order is returned
sorted. -/
theorem c3_snapshot_sorted_witness :
    List.Pairwise (fun a b => Q.le (Iter1.pricePerVCPU a) (Iter1.pricePerVCPU b))
      (goToList (some [Iter1.offerGood, Iter1.offerHigh])) :=
  c3_snapshot_sorted (.ok [Iter1.offerHigh, Iter1.offerGood])
    (some [Iter1.offerGood, Iter1.offerHigh]) (by decide)

/-- C6 counterexample: an offer whose spot price does not parse as a decimal
but whose savings rate qualifies is NOT dropped — it stays in the snapshot
and even becomes the region's leaderboard entry (with price treated as 0),
contradicting the claim that it is dropped from the snapshot and from
leaderboard eligibility. -/
theorem c6_counterexample_unparseable_price_kept :
    parseGoFloat Iter1.offerBadPrice.SpotPrice = none ∧
    Iter1.getSpotDeals (.ok [Iter1.offerBadPrice]) = .ok (some [Iter1.offerBadPrice]) ∧
    Iter1.fetchSpotData (.ok [Iter1.regionUSEast]) Iter1.fetchBadPrice "t" = .ok
      { LastUpdated := "t"
        Regions := [("us-east-1", some [Iter1.offerBadPrice])]
        GlobalTop5 := some [Iter1.mkGlobalDeal "us-east-1" Iter1.offerBadPrice] } :=
  ⟨by decide, by decide, by decide⟩

/-- C6 amended: an offer whose savings rate fails to parse is dropped, but an
offer whose spot price fails to parse while its savings rate qualifies is
retained in the snapshot, ranked with its price treated as 0. -/
theorem c6_amended_unparseable_price_kept_as_zero (prices : List Iter1.Instance)
    (i : Iter1.Instance) (hi : i ∈ prices) (hk : Iter1.keepInstance i = true)
    (hp : parseGoFloat i.SpotPrice = none) :
    ∃ s, Iter1.getSpotDeals (.ok prices) = .ok s ∧ i ∈ goToList s ∧
      (Iter1.pricePerVCPU i).num = 0 := by
  obtain ⟨s, hs, hperm⟩ := Iter1.getSpotDeals_ok prices
  refine ⟨s, hs, hperm.mem_iff.mpr (List.mem_filter.mpr ⟨hi, hk⟩), ?_⟩
  unfold Iter1.pricePerVCPU
  rw [hp]
  show (Q.divInt Q.zero i.VCPUS).num = 0
  unfold Q.divInt
  split
  · rfl
  · split
    · simp [Q.zero, Q.ofInt]
    · rfl

/-- Witness for the amended C6 at the concrete unparseable-price offer. -/
theorem c6_amended_unparseable_price_kept_as_zero_witness :
    ∃ s, Iter1.getSpotDeals (.ok [Iter1.offerBadPrice]) = .ok s ∧
      Iter1.offerBadPrice ∈ goToList s ∧
      (Iter1.pricePerVCPU Iter1.offerBadPrice).num = 0 :=
  c6_amended_unparseable_price_kept_as_zero [Iter1.offerBadPrice] Iter1.offerBadPrice
    (by decide) (by decide) (by decide)

/-- C7: every region key of the run's mapping is a dispatched region whose
fetch succeeded, holding exactly the fetched snapshot (even a nil one), and a
region whose fetch failed — or was never dispatched — is absent, with no
empty or failure marker recorded. -/
theorem c7_mapping_keys_are_successful_regions (entries : List Iter1.Region)
    (fetch : String → Except Unit (List Iter1.Instance)) (now : String) :
    ∃ data, Iter1.fetchSpotData (.ok entries) fetch now = .ok data ∧
      ∀ r, List.lookup r data.Regions =
        match Iter1.getSpotDeals (fetch r) with
        | .ok v => if r ∈ Iter1.regionCodes entries then some v else none
        | .error _ => none := by
  refine ⟨_, Iter1.fetchSpotData_eq entries fetch now, ?_⟩
  intro r
  dsimp only
  rw [Iter1.lookup_fetchLoop]
  cases h : Iter1.getSpotDeals (fetch r) with
  | error e =>
    rw [show Iter1.regionResult fetch r = .error e from h]
    rfl
  | ok v =>
    rw [show Iter1.regionResult fetch r = .ok v from h]
    rfl

/-- C8: when the region-directory fetch or its parse fails, `fetchRegions`
reports the failure, and `main` terminates reporting it with the persisted
output file left exactly as it was (the file is only created after
`fetchSpotData` returns). -/
theorem c8_no_output_on_region_directory_failure (file0 : Option Iter1.SpotData)
    (fetch : String → Except Unit (List Iter1.Instance)) (now : String) :
    Iter1.fetchRegions (.error ()) = .error () ∧
    Iter1.main file0 (.error ()) fetch now = (file0, .error ()) :=
  ⟨rfl, rfl⟩

/-- C9 counterexample: two distinct directory entries tagged `"AWS Region"`
carrying the same code make `fetchRegions` return that code twice — the
returned sequence is not deduplicated. -/
theorem c9_counterexample_duplicate_codes_not_deduplicated :
    Iter1.fetchRegions (.ok [Iter1.regionDupA, Iter1.regionDupB]) =
      .ok ["us-east-1", "us-east-1"] ∧
    ¬ (["us-east-1", "us-east-1"] : List String).Nodup :=
  ⟨by decide, by decide⟩

/-- C9 amended: `fetchRegions` returns exactly the codes (with multiplicity)
of the directory entries typed `"AWS Region"`, in ascending lexical order; the
result is duplicate-free exactly when those codes are pairwise distinct — no
deduplication is performed. -/
theorem c9_amended_sorted_codes_multiset (entries : List Iter1.Region) :
    ∃ l, Iter1.fetchRegions (.ok entries) = .ok l ∧
      List.Sorted strLE l ∧
      List.Perm l (entries.filterMap
        (fun r => if r.type = "AWS Region" then some r.code else none)) ∧
      (l.Nodup ↔ (entries.filterMap
        (fun r => if r.type = "AWS Region" then some r.code else none)).Nodup) := by
  have hperm : List.Perm (Iter1.regionCodes entries)
      (entries.filterMap (fun r => if r.type = "AWS Region" then some r.code else none)) := by
    unfold Iter1.regionCodes
    rw [Iter1.regionCodesRaw_eq entries [], List.nil_append]
    exact List.perm_insertionSort strLE _
  exact ⟨_, rfl, List.sorted_insertionSort strLE _, hperm, hperm.nodup_iff⟩

/-- C10: a successful fetch whose candidates all fail the savings filter
returns the nil snapshot rather than an error; every such region is still
installed in the mapping, the leaderboard is the nil slice, and both
serialize to the JSON value `null` rather than `[]`. -/
theorem c10_empty_snapshot_serializes_null (entries : List Iter1.Region)
    (fetch : String → Except Unit (List Iter1.Instance)) (now : String)
    (prices : List Iter1.Instance)
    (hall : ∀ i ∈ prices, Iter1.keepInstance i = false)
    (hf : ∀ r, fetch r = .ok prices) :
    Iter1.getSpotDeals (.ok prices) = .ok none ∧
    ∃ data, Iter1.fetchSpotData (.ok entries) fetch now = .ok data ∧
      (∀ r ∈ Iter1.regionCodes entries, List.lookup r data.Regions = some none) ∧
      data.GlobalTop5 = none ∧
      (∀ enc : Iter1.Instance → String,
        encodeGoSlice enc (none : Option (List Iter1.Instance)) = "null") ∧
      (∀ enc : Iter1.GlobalDeal → String, encodeGoSlice enc data.GlobalTop5 = "null") := by
  have hfilter : prices.filter Iter1.keepInstance = [] := by
    rw [List.filter_eq_nil_iff]
    intro i hi
    simp [hall i hi]
  have hnone : (prices.foldl
      (fun acc inst => if Iter1.keepInstance inst then goAppend acc inst else acc)
      (none : Option (List Iter1.Instance))) = none :=
    (Iter1.highSavings_eq_none prices none).mpr ⟨rfl, hfilter⟩
  have hdeals : Iter1.getSpotDeals (.ok prices) = .ok none := by
    rw [Iter1.getSpotDeals_ok_eq, hnone]
    rfl
  have hres : ∀ r, Iter1.regionResult fetch r = .ok none := by
    intro r
    unfold Iter1.regionResult
    rw [hf r]
    exact hdeals
  have hst2 : (Iter1.fetchLoop fetch (Iter1.regionCodes entries) [] none).2 = none := by
    rw [Iter1.deals_fetchLoop_none]
    refine ⟨rfl, ?_⟩
    rw [List.filterMap_eq_nil_iff]
    intro r _
    unfold Iter1.bestOf
    rw [hres r]
  refine ⟨hdeals, _, Iter1.fetchSpotData_eq entries fetch now, ?_, ?_, fun enc => rfl, ?_⟩
  · intro r hr
    dsimp only
    rw [Iter1.lookup_fetchLoop, hres r]
    simp [hr]
  · dsimp only
    rw [hst2]
    rfl
  · intro enc
    dsimp only
    rw [hst2]
    rfl

/-- Witness for C10 at a concrete region whose only candidate fails the
savings filter. -/
theorem c10_empty_snapshot_serializes_null_witness :
    Iter1.getSpotDeals (.ok [Iter1.offerLowSavings]) = .ok none ∧
    ∃ data, Iter1.fetchSpotData (.ok [Iter1.regionUSEast]) Iter1.fetchLowOnly "t" = .ok data ∧
      (∀ r ∈ Iter1.regionCodes [Iter1.regionUSEast],
        List.lookup r data.Regions = some none) ∧
      data.GlobalTop5 = none ∧
      (∀ enc : Iter1.Instance → String,
        encodeGoSlice enc (none : Option (List Iter1.Instance)) = "null") ∧
      (∀ enc : Iter1.GlobalDeal → String, encodeGoSlice enc data.GlobalTop5 = "null") :=
  c10_empty_snapshot_serializes_null [Iter1.regionUSEast] Iter1.fetchLowOnly "t"
    [Iter1.offerLowSavings] (by decide) (fun r => rfl)

/-- C1 counterexample: when two distinct directory entries tagged
`"AWS Region"` share the code `us-east-1`, that region is dispatched twice,
its best offer enters the pool twice, and the resulting `global_top_5` has
length 2 while only 1 region (map key) has a qualifying offer — violating
both the claimed length `min(5, number of regions with at least one offer)`
and the claimed at-most-one-entry-per-region property. -/
theorem c1_counterexample_duplicate_region_codes :
    ((Iter1.fetchSpotData (.ok [Iter1.regionDupA, Iter1.regionDupB])
        Iter1.fetchAllGood "t").toOption.map
      (fun d => (goLen d.GlobalTop5, countNonempty d.Regions,
                 (goToList d.GlobalTop5).map Iter1.GlobalDeal.Region))) =
      some (2, 1, ["us-east-1", "us-east-1"]) ∧
    (2 : Nat) ≠ min 5 1 :=
  ⟨by decide, by decide⟩

/-- C1 amended: provided the region identifiers discovered by `fetchRegions`
are pairwise distinct (which the duplicate-code counterexample shows is not
guaranteed by the code itself), every run of `fetchSpotData` produces a
`global_top_5` of length `min 5 (number of regions with a non-empty
snapshot)`, sorted ascending by price per vCPU, whose entries are each the
first (lowest price-per-vCPU) offer of some non-empty region snapshot of the
same run, with at most one entry per region. -/
theorem c1_amended_top5_of_best_offers (entries : List Iter1.Region)
    (fetch : String → Except Unit (List Iter1.Instance)) (now : String)
    (hnd : (Iter1.regionCodes entries).Nodup) :
    ∃ data, Iter1.fetchSpotData (.ok entries) fetch now = .ok data ∧
      goLen data.GlobalTop5 = min 5 (countNonempty data.Regions) ∧
      List.Pairwise (fun a b => Q.le a.PricePerVCPU b.PricePerVCPU)
        (goToList data.GlobalTop5) ∧
      (∀ g ∈ goToList data.GlobalTop5, ∃ r d t,
        List.lookup r data.Regions = some (some (d :: t)) ∧
        g = Iter1.mkGlobalDeal r d) ∧
      ((goToList data.GlobalTop5).map Iter1.GlobalDeal.Region).Nodup := by
  set rs := Iter1.regionCodes entries with hrs
  set X := (Iter1.fetchLoop fetch rs [] none).1 with hX
  set D := (Iter1.fetchLoop fetch rs [] none).2 with hD
  set S := D.map (List.insertionSort Iter1.dealLE) with hS
  set T := if goLen S > 5 then some ((goToList S).take 5) else S with hT
  have hmap : X = rs.filterMap (Iter1.regEntry fetch) := by
    rw [hX]
    have h := Iter1.map_fetchLoop_of_nodup fetch rs [] none hnd
      (fun x hx p hp => absurd hp (List.not_mem_nil p))
    simpa using h
  have hdeals : goToList D = rs.filterMap (Iter1.bestOf fetch) := by
    rw [hD]
    have h := Iter1.deals_fetchLoop fetch rs [] none
    simpa [goToList] using h
  have hSperm : List.Perm (goToList S) (goToList D) := by
    rw [hS]
    exact Iter1.toList_map_sort_perm _ _
  have hSsorted : List.Sorted Iter1.dealLE (goToList S) := by
    rw [hS]
    exact Iter1.sorted_toList_map_sort _ _
  have hSlen : goLen S = (rs.filterMap (Iter1.bestOf fetch)).length := by
    show (goToList S).length = _
    rw [hSperm.length_eq, hdeals]
  have hTsub : List.Sublist (goToList T) (goToList S) := by
    rw [hT]
    by_cases h5 : goLen S > 5
    · rw [if_pos h5]
      show List.Sublist (goToList (some ((goToList S).take 5))) _
      simpa [goToList] using List.take_sublist 5 (goToList S)
    · rw [if_neg h5]
  have hTlen : goLen T = min 5 (goLen S) := by
    rw [hT]
    by_cases h5 : goLen S > 5
    · rw [if_pos h5]
      show (goToList (some ((goToList S).take 5))).length = _
      show ((goToList S).take 5).length = _
      rw [List.length_take]
      rfl
    · rw [if_neg h5]
      show goLen S = min 5 (goLen S)
      omega
  refine ⟨_, Iter1.fetchSpotData_eq entries fetch now, ?_, ?_, ?_, ?_⟩
  · show goLen T = min 5 (countNonempty X)
    rw [hTlen, hSlen, hmap, Iter1.count_regEntry_eq_length_bestOf]
  · show List.Pairwise (fun a b => Q.le a.PricePerVCPU b.PricePerVCPU) (goToList T)
    exact hSsorted.sublist hTsub
  · show ∀ g ∈ goToList T, ∃ r d t,
      List.lookup r X = some (some (d :: t)) ∧ g = Iter1.mkGlobalDeal r d
    intro g hg
    have hgS : g ∈ goToList S := hTsub.subset hg
    have hgD : g ∈ goToList D := hSperm.mem_iff.mp hgS
    rw [hdeals] at hgD
    obtain ⟨r, hr, hbest⟩ := List.mem_filterMap.mp hgD
    obtain ⟨d, t, hres, hgd⟩ := Iter1.bestOf_eq_some hbest
    refine ⟨r, d, t, ?_, hgd⟩
    rw [hX, Iter1.lookup_fetchLoop, hres]
    simp [hr]
  · show ((goToList T).map Iter1.GlobalDeal.Region).Nodup
    have h1 : List.Sublist ((goToList T).map Iter1.GlobalDeal.Region)
        ((goToList S).map Iter1.GlobalDeal.Region) := hTsub.map _
    have h2 : List.Perm ((goToList S).map Iter1.GlobalDeal.Region)
        ((goToList D).map Iter1.GlobalDeal.Region) := hSperm.map _
    have h3 : ((goToList D).map Iter1.GlobalDeal.Region).Nodup := by
      rw [hdeals]
      exact hnd.sublist (Iter1.map_region_bestOf_sublist fetch rs)
    exact ((h2.nodup_iff).mpr h3).sublist h1

/-- Witness for the amended C1 at a concrete one-region directory. -/
theorem c1_amended_top5_of_best_offers_witness :
    ∃ data, Iter1.fetchSpotData (.ok [Iter1.regionUSEast]) Iter1.fetchAllGood "t" = .ok data ∧
      goLen data.GlobalTop5 = min 5 (countNonempty data.Regions) ∧
      List.Pairwise (fun a b => Q.le a.PricePerVCPU b.PricePerVCPU)
        (goToList data.GlobalTop5) ∧
      (∀ g ∈ goToList data.GlobalTop5, ∃ r d t,
        List.lookup r data.Regions = some (some (d :: t)) ∧
        g = Iter1.mkGlobalDeal r d) ∧
      ((goToList data.GlobalTop5).map Iter1.GlobalDeal.Region).Nodup :=
  c1_amended_top5_of_best_offers [Iter1.regionUSEast] Iter1.fetchAllGood "t" (by decide)

namespace Iter2

/-- Unfolding of iteration 2's `fetchSpotData` on a successfully fetched
directory. -/
theorem fetchSpotData_eq2 (entries : List (String × String))
    (fetch : String → Option (List Instance)) (now : String) :
    fetchSpotData (.ok entries) fetch now = .ok
      { LastUpdated := now
        Regions := (fetchLoop fetch (regionCodes entries) [] none).1
        GlobalTop5 :=
          if goLen ((fetchLoop fetch (regionCodes entries) [] none).2.map
              (List.insertionSort offerLE)) > 5
          then some ((goToList ((fetchLoop fetch (regionCodes entries) [] none).2.map
              (List.insertionSort offerLE))).take 5)
          else (fetchLoop fetch (regionCodes entries) [] none).2.map
              (List.insertionSort offerLE) } := rfl

/-- Example stored offer of a previous run. -/
def offerOld : Instance :=
  { InstanceType := "c5.xlarge", VCPUS := 4, Memory := "8 GiB",
    SpotSavingRate := "60%", SpotPrice := "0.05",
    PricePerVCPU := ⟨5, 400, by norm_num⟩ }

/-- Example previously persisted dataset with a non-empty `us-east-1`
snapshot. -/
def oldData : SpotData :=
  { LastUpdated := "2024-01-01T00:00:00Z"
    Regions := [("us-east-1", some [offerOld])]
    GlobalTop5 := some [offerOld] }

/-- Pricing source whose every fetch fails (HTTP error, nil result). -/
def noFetch : String → Option (List Instance) := fun _ => none

/-- Directory with the single primary region `us-east-1`. -/
def dirUSEast : List (String × String) := [("us-east-1", "AWS Region")]

end Iter2

/-- C4 counterexample: two runs over byte-identical upstream responses (same
directory, same per-region responses) but distinct wall-clock timestamps:
`dataChanged` reports `true` on the second run — the differing `last_updated`
alone — and the persisted file is rewritten, contradicting the claimed
idempotence. -/
theorem c4_counterexample_timestamp_breaks_idempotence :
    (Iter2.main (Iter2.main none (.ok []) Iter2.noFetch "2024-01-01T00:00:00Z").1
        (.ok []) Iter2.noFetch "2024-01-01T00:00:01Z").2 = .ok true ∧
    (Iter2.main (Iter2.main none (.ok []) Iter2.noFetch "2024-01-01T00:00:00Z").1
        (.ok []) Iter2.noFetch "2024-01-01T00:00:01Z").1 ≠
      (Iter2.main none (.ok []) Iter2.noFetch "2024-01-01T00:00:00Z").1 :=
  ⟨by decide, by decide⟩

/-- C4 amended: running the pipeline twice with byte-identical upstream
responses AND an identical `last_updated` timestamp string (the runs fall in
the same RFC 3339 second) yields `changed = false` on the second run and
leaves the persisted file unmodified; with a differing timestamp the
comparison fails on `last_updated` alone. -/
theorem c4_amended_idempotent_same_timestamp (file0 : Option Iter2.SpotData)
    (entries : List (String × String)) (fetch : String → Option (List Iter2.Instance))
    (now : String) :
    (Iter2.main (Iter2.main file0 (.ok entries) fetch now).1 (.ok entries) fetch now).2 =
      .ok false ∧
    (Iter2.main (Iter2.main file0 (.ok entries) fetch now).1 (.ok entries) fetch now).1 =
      (Iter2.main file0 (.ok entries) fetch now).1 := by
  obtain ⟨nd, hnd⟩ := Iter2.fetchSpotData_ok entries fetch now
  have hinner : Iter2.main file0 (.ok entries) fetch now =
      if Iter2.dataChanged (Iter2.readExistingData file0) nd then (some nd, .ok true)
      else (file0, .ok false) := Iter2.main_eq hnd
  by_cases h : Iter2.dataChanged (Iter2.readExistingData file0) nd
  · rw [hinner, if_pos h]
    dsimp only
    rw [@Iter2.main_eq (some nd) entries fetch now nd hnd]
    simp [Iter2.readExistingData, Iter2.dataChanged_self]
  · rw [hinner, if_neg h]
    dsimp only
    rw [@Iter2.main_eq file0 entries fetch now nd hnd, if_neg h]
    exact ⟨rfl, rfl⟩

/-- C5 counterexample: the old dataset has a non-empty `us-east-1` snapshot,
the new run's fetch for `us-east-1` fails, and the persisted file after the
run maps `us-east-1` to the nil snapshot instead of the claimed old entry. -/
theorem c5_counterexample_failed_fetch_erases :
    List.lookup "us-east-1" Iter2.oldData.Regions = some (some [Iter2.offerOld]) ∧
    ((Iter2.main (some Iter2.oldData) (.ok Iter2.dirUSEast) Iter2.noFetch
        "2024-01-02T00:00:00Z").1.map
      (fun d => List.lookup "us-east-1" d.Regions)) = some (some none) :=
  ⟨by decide, by decide⟩

/-- C5 amended: there is no per-region reconciliation — when region `r`'s
fetch fails in the new run, the new dataset records `r` with the nil
snapshot, and the run either writes that dataset wholesale (when anything
changed) or leaves the file untouched; the old entry for `r` is never carried
into the new dataset. -/
theorem c5_amended_failed_fetch_yields_nil (file0 : Option Iter2.SpotData)
    (entries : List (String × String)) (fetch : String → Option (List Iter2.Instance))
    (now : String) (r : String)
    (hr : r ∈ Iter2.regionCodes entries) (hf : fetch r = none) :
    ∃ nd, Iter2.fetchSpotData (.ok entries) fetch now = .ok nd ∧
      List.lookup r nd.Regions = some none ∧
      (Iter2.main file0 (.ok entries) fetch now).1 =
        (if Iter2.dataChanged (Iter2.readExistingData file0) nd then some nd else file0) := by
  obtain ⟨nd, hnd⟩ := Iter2.fetchSpotData_ok entries fetch now
  refine ⟨nd, hnd, ?_, ?_⟩
  · have h2 := Iter2.fetchSpotData_eq2 entries fetch now
    rw [hnd] at h2
    injection h2 with h2
    rw [h2]
    show List.lookup r (Iter2.fetchLoop fetch (Iter2.regionCodes entries) [] none).1 =
      some none
    rw [Iter2.lookup_fetchLoop2, if_pos hr, hf]
    rfl
  · rw [Iter2.main_eq hnd]
    by_cases h : Iter2.dataChanged (Iter2.readExistingData file0) nd
    · rw [if_pos h, if_pos h]
    · rw [if_neg h, if_neg h]

/-- Witness for the amended C5: a previously persisted non-empty `us-east-1`
snapshot and a failing fetch. -/
theorem c5_amended_failed_fetch_yields_nil_witness :
    ∃ nd, Iter2.fetchSpotData (.ok Iter2.dirUSEast) Iter2.noFetch
        "2024-01-02T00:00:00Z" = .ok nd ∧
      List.lookup "us-east-1" nd.Regions = some none ∧
      (Iter2.main (some Iter2.oldData) (.ok Iter2.dirUSEast) Iter2.noFetch
          "2024-01-02T00:00:00Z").1 =
        (if Iter2.dataChanged (Iter2.readExistingData (some Iter2.oldData)) nd
         then some nd else some Iter2.oldData) :=
  c5_amended_failed_fetch_yields_nil (some Iter2.oldData) Iter2.dirUSEast Iter2.noFetch
    "2024-01-02T00:00:00Z" "us-east-1" (by decide) rfl
